import Mathlib

set_option maxRecDepth 100000

/-!
Verification development for the APB bus transactor in `common/apb_driver.py`
(class `APBMaster`).

The development has two parts:

* a model of the signal *binder* (`find_signal` and `APBMaster.__init__`):
  signal names are strings, the DUT is modelled as the set of attribute names
  it exposes at top level plus its immediate sub-components;

* a model of the *transactor* (`APBMaster.write`, `APBMaster.read`,
  `APBMaster._wait_pready`): the cooperative coroutine is embedded as a pure
  function that records every signal assignment as a timestamped event, where
  the timestamp is the number of clock rising edges awaited so far.  A signal
  read performed by the coroutine after the k-th rising edge sees the DUT
  outputs as functions of k.  `raise TimeoutError` is embedded as
  `Except.error e` where `e` is the edge counter at the raise; a normal
  `return v` is `Except.ok v`.
-/

/-! ### Python string primitives used by the binder -/

/-- Model of CPython `str.replace` on character lists: replace every
non-overlapping occurrence of `pat`, scanning left to right.  The `fuel`
argument only makes the recursion structural; `fuel = s.length` is always
enough because each step consumes at least one character. -/
def replaceChars (pat rep : List Char) : Nat → List Char → List Char
  | _, [] => []
  | 0, s => s
  | fuel + 1, c :: rest =>
    if pat.isPrefixOf (c :: rest) ∧ pat ≠ [] then
      rep ++ replaceChars pat rep fuel ((c :: rest).drop pat.length)
    else
      c :: replaceChars pat rep fuel rest

/-- Model of CPython `s.replace(pat, rep)` (all occurrences, left to right). -/
def pyReplace (s pat rep : String) : String :=
  String.mk (replaceChars pat.data rep.data s.data.length s.data)

/-- Model of CPython `s.rstrip(c)` for a single character: drop every
trailing occurrence of `c`.  `APBMaster.__init__` does `prefix.rstrip('_')`. -/
def rstripChar (s : String) (c : Char) : String :=
  String.mk ((s.data.reverse.dropWhile (fun d => d = c)).reverse)

/-! ### The DUT as seen by the binder

`getattr(dut, name)` succeeds exactly when `name` is among the attribute
names the DUT exposes; the one-level-deep search iterates over the immediate
sub-components (in `dir()` order) and probes their attribute names.  A
resolved signal is identified by its access path (`name` at top level,
`child.name` one level down), which is what `find_name` in the source
computes for the very same search. -/

structure SimChild where
  cname : String
  csignals : List String
deriving DecidableEq

structure SimDUT where
  signals : List String
  children : List SimChild
deriving DecidableEq

/-- The candidate list built at the top of `find_signal` (and `find_name`):
`f"{prefix}_{base}"`, `f"o_{prefix}_{base}"`,
`f"{prefix.replace('i_', 'o_')}_{base}"`. -/
def candidates (pfx base : String) : List String :=
  [pfx ++ "_" ++ base,
   "o_" ++ pfx ++ "_" ++ base,
   pyReplace pfx "i_" "o_" ++ "_" ++ base]

/-- The nested part of the search in `find_signal`: for each immediate
sub-component in order, try every name in `names` (which the caller passes as
`candidates + [base_name]`) and return the first hit as a `child.name` path. -/
def resolveNested : List SimChild → List String → Option String
  | [], _ => none
  | c :: rest, names =>
    match names.find? (fun n => c.csignals.contains n) with
    | some n => some (c.cname ++ "." ++ n)
    | none => resolveNested rest names

/-- The full search order of `find_signal`: the three prefixed candidates,
then the bare base name, then the one-level-deep search.  Returns the access
path of the first hit, `none` when every probe failed. -/
def resolve (dut : SimDUT) (pfx base : String) : Option String :=
  match (candidates pfx base).find? (fun n => dut.signals.contains n) with
  | some n => some n
  | none =>
    if dut.signals.contains base then some base
    else resolveNested dut.children (candidates pfx base ++ [base])

/-- The message of the `AttributeError` raised when every probe failed:
`f"No APB signal found for {base_name}; tried: {candidates} and nested attrs"`.
(The Python repr of the candidate list quotes each element; the quoting is
omitted here, the bracketed comma-separated listing is kept.) -/
def bindErrorMsg (pfx base : String) : String :=
  "No APB signal found for " ++ base ++ "; tried: [" ++
    (pfx ++ "_" ++ base) ++ ", " ++
    ("o_" ++ pfx ++ "_" ++ base) ++ ", " ++
    (pyReplace pfx "i_" "o_" ++ "_" ++ base) ++ "] and nested attrs"

/-- Function `find_signal` in `APBMaster.__init__`: first matching candidate, or an
`AttributeError` (modelled as `Except.error`) carrying `bindErrorMsg`. -/
def find_signal (dut : SimDUT) (pfx base : String) : Except String String :=
  match resolve dut pfx base with
  | some n => Except.ok n
  | none => Except.error (bindErrorMsg pfx base)

/-- The bound transactor: the resolved access path of each of the seven
mandatory roles, and an optional path for `pslverr`. -/
structure Master where
  paddr : String
  psel : String
  penable : String
  pwrite : String
  pwdata : String
  pready : String
  prdata : String
  pslverr : Option String
deriving DecidableEq

namespace APBMaster

/-- The body of `APBMaster.__init__` after `self.prefix` has been computed:
resolve the seven mandatory roles in order (an unresolved one propagates the
`AttributeError`), and bind `pslverr` to `none` when it is unresolved. -/
def initResolved (dut : SimDUT) (pfx : String) : Except String Master := do
  let a ← find_signal dut pfx "paddr"
  let s ← find_signal dut pfx "psel"
  let e ← find_signal dut pfx "penable"
  let w ← find_signal dut pfx "pwrite"
  let wd ← find_signal dut pfx "pwdata"
  let r ← find_signal dut pfx "pready"
  let rd ← find_signal dut pfx "prdata"
  let sl : Option String :=
    match find_signal dut pfx "pslverr" with
    | Except.ok n => some n
    | Except.error _ => none
  return ⟨a, s, e, w, wd, r, rd, sl⟩

/-- Constructor `APBMaster.__init__`: `self.prefix = prefix.rstrip('_')` (the character
code 95 is the underscore), then the role resolution above. -/
def init (dut : SimDUT) (rawPfx : String) : Except String Master :=
  initResolved dut (rstripChar rawPfx (Char.ofNat 95))

end APBMaster

/-! ### The transactor -/

/-- The five signals the transactor drives. -/
inductive Role
  | paddr
  | pwdata
  | pwrite
  | psel
  | penable
deriving DecidableEq

/-- One Python assignment `self.<role>.value = val`, stamped with the number
of clock rising edges the coroutine had awaited when it executed. -/
structure Event where
  stamp : Nat
  role : Role
  val : Nat
deriving DecidableEq

/-- The driven value of `r` during the interval between rising edge `k` and
rising edge `k+1`: the value of the last assignment to `r` with stamp `≤ k`
(later assignments appear later in the event list), or `none` when `r` was
never driven. -/
def valueAt : List Event → Role → Nat → Option Nat
  | [], _, _ => none
  | e :: rest, r, k =>
    match valueAt rest r k with
    | some v => some v
    | none => if e.role = r ∧ e.stamp ≤ k then some e.val else none

/-- The DUT outputs the transactor samples, as functions of the number of
rising edges elapsed: `pready k` / `prdata k` / `pslverr k` is the value an
`int(sig.value)` read performed just after the k-th rising edge returns.
`pslverr = none` models a DUT without the optional error signal. -/
structure DutOut where
  pready : Nat → Nat
  prdata : Nat → Nat
  pslverr : Option (Nat → Nat)

/-- Constant `max_cycles = 5000` in `APBMaster._wait_pready`. -/
def maxCycles : Nat := 5000

namespace APBMaster

/-- Method `APBMaster._wait_pready`, entered just after rising edge `e`.  Iteration
`cycle` samples `pready` just after edge `e + cycle`; on `pready == 1` at
edge `m` the loop awaits one further edge (the data-stabilize cycle, so the
coroutine resumes just after edge `m + 1`) and returns `Except.ok m`; after
`fuel` fruitless iterations (each of which awaited one edge) it raises
`TimeoutError`, modelled as `Except.error` carrying the edge counter at the
raise, namely `e + fuel`. -/
def wait_pready (p : Nat → Nat) : Nat → Nat → Except Nat Nat
  | 0, e => Except.error e
  | fuel + 1, e => if p e = 1 then Except.ok e else wait_pready p fuel (e + 1)

/-- Method `APBMaster.write`: drive `paddr`, `pwdata`, `pwrite=1`, `psel=1`,
`penable=0` (stamp 0), await one rising edge, assert `penable=1` (stamp 1),
wait for `pready`; on success (ready observed at edge `m`, coroutine resumed
at edge `m+1`) deassert `psel`, `penable`, `pwrite` (stamp `m+1`), then
return `(False, 'pslverr asserted')` when `pslverr` is bound and reads 1,
else `(True, None)`.  On timeout the `TimeoutError` propagates and the
deassignments are never executed. -/
def write (dut : DutOut) (addr data : Nat) :
    List Event × Except Nat (Bool × Option String) :=
  let setup : List Event :=
    [⟨0, Role.paddr, addr⟩, ⟨0, Role.pwdata, data⟩, ⟨0, Role.pwrite, 1⟩,
     ⟨0, Role.psel, 1⟩, ⟨0, Role.penable, 0⟩, ⟨1, Role.penable, 1⟩]
  match wait_pready dut.pready maxCycles 1 with
  | Except.error e => (setup, Except.error e)
  | Except.ok m =>
    let evs := setup ++
      [⟨m + 1, Role.psel, 0⟩, ⟨m + 1, Role.penable, 0⟩, ⟨m + 1, Role.pwrite, 0⟩]
    let res : Except Nat (Bool × Option String) :=
      match dut.pslverr with
      | some f =>
        if f (m + 1) = 1 then Except.ok (false, some "pslverr asserted")
        else Except.ok (true, none)
      | none => Except.ok (true, none)
    (evs, res)

/-- Method `APBMaster.read`: like `write` with `pwrite=0` and no `pwdata` drive;
after `_wait_pready` returns (just after edge `m+1`) it captures
`int(self.prdata.value)`, deasserts `psel` and `penable` (stamp `m+1`), and
returns `(0, 'pslverr asserted')` when `pslverr` is bound and reads 1, else
`(value, None)`. -/
def read (dut : DutOut) (addr : Nat) :
    List Event × Except Nat (Nat × Option String) :=
  let setup : List Event :=
    [⟨0, Role.paddr, addr⟩, ⟨0, Role.pwrite, 0⟩,
     ⟨0, Role.psel, 1⟩, ⟨0, Role.penable, 0⟩, ⟨1, Role.penable, 1⟩]
  match wait_pready dut.pready maxCycles 1 with
  | Except.error e => (setup, Except.error e)
  | Except.ok m =>
    let v := dut.prdata (m + 1)
    let evs := setup ++ [⟨m + 1, Role.psel, 0⟩, ⟨m + 1, Role.penable, 0⟩]
    let res : Except Nat (Nat × Option String) :=
      match dut.pslverr with
      | some f =>
        if f (m + 1) = 1 then Except.ok (0, some "pslverr asserted")
        else Except.ok (v, none)
      | none => Except.ok (v, none)
    (evs, res)

end APBMaster

/-- A DUT whose read data changes between the ready edge and the next one:
`pready` is 1 exactly at edge 1, `prdata` at edge `k` is `k`. -/
def driftDut : DutOut := ⟨fun k => if k = 1 then 1 else 0, fun k => k, none⟩

/-- A DUT with `pslverr` bound and permanently deasserted. -/
def okErrDut : DutOut := ⟨fun _ => 1, fun k => k + 10, some (fun _ => 0)⟩

/-- A DUT with `pslverr` bound and permanently asserted. -/
def errDut : DutOut := ⟨fun _ => 1, fun _ => 0, some (fun _ => 1)⟩

/-- A DUT whose `pslverr` is asserted exactly at the edge where ready fires
(edge 1) and deasserted afterwards. -/
def blipDut : DutOut :=
  ⟨fun k => if k = 1 then 1 else 0, fun _ => 0, some (fun k => if k = 1 then 1 else 0)⟩

/-- A zero-wait-state DUT: `pready` constantly 1, no `pslverr`. -/
def readyDut : DutOut := ⟨fun _ => 1, fun _ => 0, none⟩

/-- A hung DUT: `pready` constantly 0. -/
def lowDut : DutOut := ⟨fun _ => 0, fun _ => 0, none⟩

/-- First hit of a probe sequence: the access path of the first entry whose
probe succeeded. -/
def firstHit (l : List (Bool × String)) : Option String :=
  (l.find? (fun q => q.1)).map (fun q => q.2)

/-- The nested probes of claim C5: for each immediate sub-component in
order, the same name forms, as `child.name` access paths. -/
def specNestedProbes (names : List String) : List SimChild → List (Bool × String)
  | [] => []
  | c :: rest =>
    names.map (fun n => (c.csignals.contains n, c.cname ++ "." ++ n)) ++
      specNestedProbes names rest

/-- The probe sequence in the order claim C5 states it, each entry paired
with whether the probe hits: `P_B`, the output-marked variant `o_P_B`, the
direction-substituted `P.replace(i_, o_)_B`, the bare `B`, then the same
four forms one level deep in each immediate DUT sub-component. -/
def specProbes (dut : SimDUT) (pfx base : String) : List (Bool × String) :=
  (candidates pfx base ++ [base]).map (fun n => (dut.signals.contains n, n)) ++
    specNestedProbes (candidates pfx base ++ [base]) dut.children

/-- The DUT of the C5 scenario: only output-direction `o_cpu_apb_*` signals,
no sub-components. -/
def scenarioDut : SimDUT :=
  ⟨["o_cpu_apb_paddr", "o_cpu_apb_psel", "o_cpu_apb_penable", "o_cpu_apb_pwrite",
    "o_cpu_apb_pwdata", "o_cpu_apb_pready", "o_cpu_apb_prdata", "o_cpu_apb_pslverr"],
   []⟩

/-- Contrast definition named by claim C10 (built from the claim's words,
not from the source): swap only a *leading* input-direction marker. -/
def swapLeadingMarker (s : String) : String :=
  if ("i_".data).isPrefixOf s.data then String.mk ("o_".data ++ s.data.drop 2) else s

/-- The seven mandatory roles, in the order `__init__` resolves them. -/
def mandatoryRoles : List String :=
  ["paddr", "psel", "penable", "pwrite", "pwdata", "pready", "prdata"]

/-- A DUT exposing the seven mandatory signals under prefix `bus` and no
`pslverr` anywhere. -/
def noSlverrDut : SimDUT :=
  ⟨["bus_paddr", "bus_psel", "bus_penable", "bus_pwrite", "bus_pwdata",
    "bus_pready", "bus_prdata"], []⟩

/-- A DUT exposing nothing at all. -/
def emptyDut : SimDUT := ⟨[], []⟩

/-- The driven trace of `write` against the zero-wait-state DUT (the trace
does not depend on the DUT's data outputs). -/
def writeEvsReg (a d : Nat) : List Event := (APBMaster.write readyDut a d).1

/-- The driven trace of `read` against a zero-wait-state DUT. -/
def readEvsReg (a : Nat) : List Event := (APBMaster.read readyDut a).1

/-- The simple-register APB slave that claim C9 hypothesises (the DUT is
external to this repository, so this models the claim's own premise): at
each rising edge `j+1` it samples the values driven during interval `j`; on
`psel ∧ penable ∧ pwrite` at its address it latches `pwdata`, otherwise it
keeps its state; it holds `pready` high and signals no slave error. -/
def memAt (evs : List Event) (regAddr mem0 : Nat) : Nat → Nat
  | 0 => mem0
  | j + 1 =>
    if valueAt evs Role.psel j = some 1 ∧ valueAt evs Role.penable j = some 1 ∧
        valueAt evs Role.pwrite j = some 1 ∧ valueAt evs Role.paddr j = some regAddr then
      (valueAt evs Role.pwdata j).getD (memAt evs regAddr mem0 j)
    else memAt evs regAddr mem0 j

/-- The register slave as seen by the `read` transaction that follows the
write of claim C9: storage initialised to the written value `d`, evolving
under the read's own driven trace, `prdata` presenting the current state. -/
def regReadDut (a d : Nat) : DutOut :=
  ⟨fun _ => 1, fun k => memAt (readEvsReg a) a d k, none⟩

example : (APBMaster.write readyDut 0x100 0xCAFEBABE).2 = Except.ok (true, none) := rfl

example : (APBMaster.read readyDut 0x100).2 = Except.ok (0, none) := rfl

/-! ### Helper lemmas about the wait loop -/

theorem wait_pready_succ_eq (p : Nat → Nat) (fuel e : Nat) :
    APBMaster.wait_pready p (fuel + 1) e =
      if p e = 1 then Except.ok e else APBMaster.wait_pready p fuel (e + 1) := rfl

theorem wait_pready_error_of_low (p : Nat → Nat) (fuel : Nat) :
    ∀ e, (∀ k, e ≤ k → k < e + fuel → p k ≠ 1) →
      APBMaster.wait_pready p fuel e = Except.error (e + fuel) := by
  induction fuel with
  | zero =>
    intro e _
    rfl
  | succ n ih =>
    intro e h
    rw [wait_pready_succ_eq, if_neg (h e (Nat.le_refl e) (by omega))]
    rw [ih (e + 1) (fun k hk1 hk2 => h k (by omega) (by omega))]
    congr 1
    omega

theorem wait_pready_ok_of_high (p : Nat → Nat) (fuel k : Nat) (h3 : p k = 1) :
    ∀ e, e ≤ k → k < e + fuel →
      ∃ m, APBMaster.wait_pready p fuel e = Except.ok m := by
  induction fuel with
  | zero =>
    intro e h1 h2
    omega
  | succ n ih =>
    intro e h1 h2
    by_cases hpe : p e = 1
    · exact ⟨e, by rw [wait_pready_succ_eq, if_pos hpe]⟩
    · have hek : e + 1 ≤ k := by
        rcases Nat.eq_or_lt_of_le h1 with heq | hlt
        · exact absurd (heq ▸ h3) hpe
        · omega
      obtain ⟨m, hm⟩ := ih (e + 1) hek (by omega)
      exact ⟨m, by rw [wait_pready_succ_eq, if_neg hpe, hm]⟩

/-! ### Claim theorems -/

/-- C1: every `write(address, data)` call first drives `paddr=address`,
`pwdata=data`, `pwrite=1`, `psel=1`, `penable=0` for one clock cycle (the
Setup interval, stamp 0), then asserts `penable=1` with the other driven
signals unchanged and holds all of them through every interval up to the edge
`m` at which `pready` is observed asserted, then deasserts `psel`, `penable`
and `pwrite`, and returns Success `(True, None)` when no `pslverr` signal is
bound or the bound one reads deasserted at the post-ready check. -/
theorem write_protocol_c1 (dut : DutOut) (addr data m : Nat)
    (hm : APBMaster.wait_pready dut.pready maxCycles 1 = Except.ok m)
    (hok : dut.pslverr = none ∨ ∃ f, dut.pslverr = some f ∧ f (m + 1) ≠ 1) :
    (valueAt (APBMaster.write dut addr data).1 Role.paddr 0 = some addr ∧
     valueAt (APBMaster.write dut addr data).1 Role.pwdata 0 = some data ∧
     valueAt (APBMaster.write dut addr data).1 Role.pwrite 0 = some 1 ∧
     valueAt (APBMaster.write dut addr data).1 Role.psel 0 = some 1 ∧
     valueAt (APBMaster.write dut addr data).1 Role.penable 0 = some 0) ∧
    (∀ k, 1 ≤ k → k ≤ m →
      valueAt (APBMaster.write dut addr data).1 Role.penable k = some 1 ∧
      valueAt (APBMaster.write dut addr data).1 Role.paddr k = some addr ∧
      valueAt (APBMaster.write dut addr data).1 Role.pwdata k = some data ∧
      valueAt (APBMaster.write dut addr data).1 Role.pwrite k = some 1 ∧
      valueAt (APBMaster.write dut addr data).1 Role.psel k = some 1) ∧
    (∀ k, m + 1 ≤ k →
      valueAt (APBMaster.write dut addr data).1 Role.psel k = some 0 ∧
      valueAt (APBMaster.write dut addr data).1 Role.penable k = some 0 ∧
      valueAt (APBMaster.write dut addr data).1 Role.pwrite k = some 0) ∧
    (APBMaster.write dut addr data).2 = Except.ok (true, none) := by
  refine ⟨?_, ?_, ?_, ?_⟩
  · have h0 : ¬ (m + 1 ≤ 0) := by omega
    simp [APBMaster.write, hm, valueAt, h0]
  · intro k hk1 hk2
    have hk3 : ¬ (m + 1 ≤ k) := by omega
    simp [APBMaster.write, hm, valueAt, hk1, hk3]
  · intro k hk
    have hk1 : (1 : Nat) ≤ k := by omega
    simp [APBMaster.write, hm, valueAt, hk, hk1]
  · rcases hok with hnone | ⟨f, hf, hfv⟩
    · simp [APBMaster.write, hm, hnone]
    · simp [APBMaster.write, hm, hf, hfv]

/-- Witness for C1 at `readyDut`, `write(0x100, 0xCAFEBABE)`: ready is
observed at edge 1, the transaction succeeds. -/
theorem write_protocol_c1_witness :
    valueAt (APBMaster.write readyDut 0x100 0xCAFEBABE).1 Role.pwdata 0 = some 0xCAFEBABE ∧
    valueAt (APBMaster.write readyDut 0x100 0xCAFEBABE).1 Role.penable 0 = some 0 ∧
    valueAt (APBMaster.write readyDut 0x100 0xCAFEBABE).1 Role.penable 1 = some 1 ∧
    valueAt (APBMaster.write readyDut 0x100 0xCAFEBABE).1 Role.psel 2 = some 0 ∧
    (APBMaster.write readyDut 0x100 0xCAFEBABE).2 = Except.ok (true, none) := by
  have h := write_protocol_c1 readyDut 0x100 0xCAFEBABE 1 rfl (Or.inl rfl)
  exact ⟨h.1.2.1, h.1.2.2.2.2, (h.2.1 1 (by omega) (by omega)).1,
    (h.2.2.1 2 (by omega)).1, h.2.2.2⟩

/-- C2: for write and read alike, if the DUT holds `pready` deasserted at
every sampled edge the transactor raises `TimeoutError` — an exception
(`Except.error`), not a returned value — with the edge counter at the raise
equal to `1 + maxCycles`: the wait loop was entered just after edge 1 and
awaited exactly `maxCycles = 5000` clock edges before raising, and not
fewer; if `pready` reads 1 at any of the 5000 sampled edges, no timeout
occurs and the call returns a value. -/
theorem timeout_exact_bound_c2 :
    maxCycles = 5000 ∧
    (∀ (dut : DutOut) (addr data : Nat),
      (∀ k, 1 ≤ k → k ≤ maxCycles → dut.pready k ≠ 1) →
        (APBMaster.write dut addr data).2 = Except.error (1 + maxCycles) ∧
        (APBMaster.read dut addr).2 = Except.error (1 + maxCycles)) ∧
    (∀ (dut : DutOut) (addr data k : Nat),
      1 ≤ k → k ≤ maxCycles → dut.pready k = 1 →
        (∃ r, (APBMaster.write dut addr data).2 = Except.ok r) ∧
        (∃ r, (APBMaster.read dut addr).2 = Except.ok r)) := by
  refine ⟨rfl, ?_, ?_⟩
  · intro dut addr data h
    have herr := wait_pready_error_of_low dut.pready maxCycles 1
      (fun k hk1 hk2 => h k hk1 (by omega))
    constructor
    · simp [APBMaster.write, herr]
    · simp [APBMaster.read, herr]
  · intro dut addr data k hk1 hk2 hk3
    obtain ⟨m, hm⟩ := wait_pready_ok_of_high dut.pready maxCycles k hk3 1 hk1 (by omega)
    constructor
    · match hsl : dut.pslverr with
      | none => exact ⟨(true, none), by simp [APBMaster.write, hm, hsl]⟩
      | some f =>
        by_cases hf : f (m + 1) = 1
        · exact ⟨(false, some "pslverr asserted"), by simp [APBMaster.write, hm, hsl, hf]⟩
        · exact ⟨(true, none), by simp [APBMaster.write, hm, hsl, hf]⟩
    · match hsl : dut.pslverr with
      | none => exact ⟨(dut.prdata (m + 1), none), by simp [APBMaster.read, hm, hsl]⟩
      | some f =>
        by_cases hf : f (m + 1) = 1
        · exact ⟨(0, some "pslverr asserted"), by simp [APBMaster.read, hm, hsl, hf]⟩
        · exact ⟨(dut.prdata (m + 1), none), by simp [APBMaster.read, hm, hsl, hf]⟩

/-- Witness for C2: the hung DUT times out at edge counter 5001 on both
operations; the zero-wait-state DUT (ready at edge 1) never times out. -/
theorem timeout_exact_bound_c2_witness :
    (APBMaster.write lowDut 0 0).2 = Except.error 5001 ∧
    (APBMaster.read lowDut 0).2 = Except.error 5001 ∧
    (∃ r, (APBMaster.write readyDut 0 0).2 = Except.ok r) ∧
    (∃ r, (APBMaster.read readyDut 0).2 = Except.ok r) := by
  have ht := timeout_exact_bound_c2.2.1 lowDut 0 0 (fun k _ _ => by simp [lowDut])
  have hr := timeout_exact_bound_c2.2.2 readyDut 0 0 1 (by omega) (by decide) rfl
  exact ⟨ht.1, ht.2, hr.1, hr.2⟩

/-- C7: when a transaction aborts with Timeout, the deassignment statements
are never executed, so `psel` and `penable` stay driven asserted from the
start of the access phase onwards; on every non-Timeout exit of `write` and
`read` (the wait returned, whatever the `pslverr` outcome) both are driven
deasserted from the deassertion stamp onwards. -/
theorem timeout_frame_c7 :
    (∀ (dut : DutOut) (addr data e : Nat),
      APBMaster.wait_pready dut.pready maxCycles 1 = Except.error e →
        ∀ k, 1 ≤ k →
          valueAt (APBMaster.write dut addr data).1 Role.psel k = some 1 ∧
          valueAt (APBMaster.write dut addr data).1 Role.penable k = some 1 ∧
          valueAt (APBMaster.read dut addr).1 Role.psel k = some 1 ∧
          valueAt (APBMaster.read dut addr).1 Role.penable k = some 1) ∧
    (∀ (dut : DutOut) (addr data m : Nat),
      APBMaster.wait_pready dut.pready maxCycles 1 = Except.ok m →
        ∀ k, m + 1 ≤ k →
          valueAt (APBMaster.write dut addr data).1 Role.psel k = some 0 ∧
          valueAt (APBMaster.write dut addr data).1 Role.penable k = some 0 ∧
          valueAt (APBMaster.read dut addr).1 Role.psel k = some 0 ∧
          valueAt (APBMaster.read dut addr).1 Role.penable k = some 0) := by
  constructor
  · intro dut addr data e herr k hk
    simp [APBMaster.write, APBMaster.read, herr, valueAt, hk]
  · intro dut addr data m hm k hk
    have hk1 : (1 : Nat) ≤ k := by omega
    simp [APBMaster.write, APBMaster.read, hm, valueAt, hk, hk1]

/-- Witness for C7: the hung DUT leaves `psel`/`penable` asserted at
interval 7; the zero-wait-state DUT leaves them deasserted at interval 2. -/
theorem timeout_frame_c7_witness :
    (valueAt (APBMaster.write lowDut 0 0).1 Role.psel 7 = some 1 ∧
     valueAt (APBMaster.write lowDut 0 0).1 Role.penable 7 = some 1 ∧
     valueAt (APBMaster.read lowDut 0).1 Role.psel 7 = some 1 ∧
     valueAt (APBMaster.read lowDut 0).1 Role.penable 7 = some 1) ∧
    (valueAt (APBMaster.write readyDut 0 0).1 Role.psel 2 = some 0 ∧
     valueAt (APBMaster.write readyDut 0 0).1 Role.penable 2 = some 0 ∧
     valueAt (APBMaster.read readyDut 0).1 Role.psel 2 = some 0 ∧
     valueAt (APBMaster.read readyDut 0).1 Role.penable 2 = some 0) := by
  have he : APBMaster.wait_pready lowDut.pready maxCycles 1 = Except.error (1 + maxCycles) :=
    wait_pready_error_of_low lowDut.pready maxCycles 1 (fun k _ _ => by simp [lowDut])
  exact ⟨timeout_frame_c7.1 lowDut 0 0 (1 + maxCycles) he 7 (by omega),
         timeout_frame_c7.2 readyDut 0 0 1 rfl 2 (by omega)⟩

/-- C8: for every transaction (write and read), `psel` is driven asserted on
every interval from the start of Setup (interval 0) through the end of
Access (interval `m`, where `pready` was observed at edge `m`) inclusive and
driven deasserted on every interval after the transaction, while `penable`
is driven deasserted during the Setup interval and asserted exactly during
the Access intervals `1..m`. -/
theorem select_enable_phases_c8 (dut : DutOut) (addr data m : Nat)
    (hm : APBMaster.wait_pready dut.pready maxCycles 1 = Except.ok m) :
    (valueAt (APBMaster.write dut addr data).1 Role.psel 0 = some 1 ∧
     valueAt (APBMaster.write dut addr data).1 Role.penable 0 = some 0 ∧
     valueAt (APBMaster.read dut addr).1 Role.psel 0 = some 1 ∧
     valueAt (APBMaster.read dut addr).1 Role.penable 0 = some 0) ∧
    (∀ k, 1 ≤ k → k ≤ m →
      valueAt (APBMaster.write dut addr data).1 Role.psel k = some 1 ∧
      valueAt (APBMaster.write dut addr data).1 Role.penable k = some 1 ∧
      valueAt (APBMaster.read dut addr).1 Role.psel k = some 1 ∧
      valueAt (APBMaster.read dut addr).1 Role.penable k = some 1) ∧
    (∀ k, m + 1 ≤ k →
      valueAt (APBMaster.write dut addr data).1 Role.psel k = some 0 ∧
      valueAt (APBMaster.write dut addr data).1 Role.penable k = some 0 ∧
      valueAt (APBMaster.read dut addr).1 Role.psel k = some 0 ∧
      valueAt (APBMaster.read dut addr).1 Role.penable k = some 0) := by
  refine ⟨?_, ?_, ?_⟩
  · have h0 : ¬ (m + 1 ≤ 0) := by omega
    simp [APBMaster.write, APBMaster.read, hm, valueAt, h0]
  · intro k hk1 hk2
    have hk3 : ¬ (m + 1 ≤ k) := by omega
    simp [APBMaster.write, APBMaster.read, hm, valueAt, hk1, hk3]
  · intro k hk
    have hk1 : (1 : Nat) ≤ k := by omega
    simp [APBMaster.write, APBMaster.read, hm, valueAt, hk, hk1]

/-- Witness for C8 at the zero-wait-state DUT (`m = 1`). -/
theorem select_enable_phases_c8_witness :
    (valueAt (APBMaster.write readyDut 4 5).1 Role.psel 0 = some 1 ∧
     valueAt (APBMaster.write readyDut 4 5).1 Role.penable 0 = some 0 ∧
     valueAt (APBMaster.read readyDut 4).1 Role.psel 0 = some 1 ∧
     valueAt (APBMaster.read readyDut 4).1 Role.penable 0 = some 0) ∧
    (valueAt (APBMaster.write readyDut 4 5).1 Role.psel 1 = some 1 ∧
     valueAt (APBMaster.write readyDut 4 5).1 Role.penable 1 = some 1 ∧
     valueAt (APBMaster.read readyDut 4).1 Role.psel 1 = some 1 ∧
     valueAt (APBMaster.read readyDut 4).1 Role.penable 1 = some 1) ∧
    (valueAt (APBMaster.write readyDut 4 5).1 Role.psel 2 = some 0 ∧
     valueAt (APBMaster.write readyDut 4 5).1 Role.penable 2 = some 0 ∧
     valueAt (APBMaster.read readyDut 4).1 Role.psel 2 = some 0 ∧
     valueAt (APBMaster.read readyDut 4).1 Role.penable 2 = some 0) := by
  have h := select_enable_phases_c8 readyDut 4 5 1 rfl
  exact ⟨h.1, h.2.1 1 (by omega) (by omega), h.2.2 2 (by omega)⟩

theorem wait_pready_ok_ge (p : Nat → Nat) (fuel : Nat) :
    ∀ e m, APBMaster.wait_pready p fuel e = Except.ok m → e ≤ m ∧ p m = 1 := by
  induction fuel with
  | zero =>
    intro e m h
    simp [APBMaster.wait_pready] at h
  | succ n ih =>
    intro e m h
    rw [wait_pready_succ_eq] at h
    by_cases hpe : p e = 1
    · rw [if_pos hpe] at h
      obtain rfl : e = m := by injection h
      exact ⟨Nat.le_refl e, hpe⟩
    · rw [if_neg hpe] at h
      have := ih (e + 1) m h
      exact ⟨by omega, this.2⟩

/-- Counterexample to C3 as stated: on `driftDut`, ready is observed asserted
at edge 1 and `prdata` at that sample point is 1, yet `read` returns 2 — the
value of `prdata` one edge later (after the stabilize cycle), not the value
at the sample point at which ready was observed. -/
theorem read_capture_c3_counterexample :
    APBMaster.wait_pready driftDut.pready maxCycles 1 = Except.ok 1 ∧
    driftDut.prdata 1 = 1 ∧
    (APBMaster.read driftDut 0).2 = Except.ok (2, none) ∧
    (APBMaster.read driftDut 0).2 ≠ Except.ok (driftDut.prdata 1, none) := by
  refine ⟨rfl, rfl, rfl, ?_⟩
  intro h
  rw [show (APBMaster.read driftDut 0).2 = Except.ok (2, none) from rfl] at h
  simp [driftDut] at h

/-- C3 (amended): every `read(address)` call that completes without Timeout
captures `prdata` one clock edge after `pready` is observed asserted (after
the mandatory stabilize cycle, at edge `m+1`, in program order before the
deassignments of `psel`/`penable`, which are still driven asserted through
interval `m`) and returns that captured value on success, or returns 0
together with the slave-error failure when the optional error signal reads
asserted at that same post-ready sample point. -/
theorem read_capture_amended_c3 :
    (∀ (dut : DutOut) (addr m : Nat),
      APBMaster.wait_pready dut.pready maxCycles 1 = Except.ok m →
      dut.pslverr = none →
        (APBMaster.read dut addr).2 = Except.ok (dut.prdata (m + 1), none) ∧
        valueAt (APBMaster.read dut addr).1 Role.psel m = some 1 ∧
        valueAt (APBMaster.read dut addr).1 Role.penable m = some 1) ∧
    (∀ (dut : DutOut) (addr m : Nat) (f : Nat → Nat),
      APBMaster.wait_pready dut.pready maxCycles 1 = Except.ok m →
      dut.pslverr = some f → f (m + 1) ≠ 1 →
        (APBMaster.read dut addr).2 = Except.ok (dut.prdata (m + 1), none)) ∧
    (∀ (dut : DutOut) (addr m : Nat) (f : Nat → Nat),
      APBMaster.wait_pready dut.pready maxCycles 1 = Except.ok m →
      dut.pslverr = some f → f (m + 1) = 1 →
        (APBMaster.read dut addr).2 = Except.ok (0, some "pslverr asserted")) := by
  refine ⟨?_, ?_, ?_⟩
  · intro dut addr m hm hnone
    have hm1 : 1 ≤ m := (wait_pready_ok_ge dut.pready maxCycles 1 m hm).1
    have hm2 : ¬ (m + 1 ≤ m) := by omega
    refine ⟨by simp [APBMaster.read, hm, hnone], ?_, ?_⟩ <;>
      simp [APBMaster.read, hm, valueAt, hm1, hm2]
  · intro dut addr m f hm hf hv
    simp [APBMaster.read, hm, hf, hv]
  · intro dut addr m f hm hf hv
    simp [APBMaster.read, hm, hf, hv]

/-- Witness for the amended C3: no error signal bound (value captured at
edge 2), error signal bound but low (value captured at edge 2), error signal
bound and high (0 plus the failure string). -/
theorem read_capture_amended_c3_witness :
    ((APBMaster.read driftDut 0).2 = Except.ok (driftDut.prdata 2, none) ∧
     valueAt (APBMaster.read driftDut 0).1 Role.psel 1 = some 1 ∧
     valueAt (APBMaster.read driftDut 0).1 Role.penable 1 = some 1) ∧
    (APBMaster.read okErrDut 3).2 = Except.ok (okErrDut.prdata 2, none) ∧
    (APBMaster.read errDut 3).2 = Except.ok (0, some "pslverr asserted") := by
  exact ⟨read_capture_amended_c3.1 driftDut 0 1 rfl rfl,
         read_capture_amended_c3.2.1 okErrDut 3 1 (fun _ => 0) rfl rfl (by simp),
         read_capture_amended_c3.2.2 errDut 3 1 (fun _ => 1) rfl rfl rfl⟩

/-- Counterexample to C4 as stated: on `blipDut` the bound slave-error signal
reads asserted exactly at the moment ready fires (edge 1), yet `write`
returns the Success outcome `(True, None)` and `read` returns a Success with
value 0 — because the code only samples `pslverr` one edge later, where it
reads 0. -/
theorem slverr_timing_c4_counterexample :
    APBMaster.wait_pready blipDut.pready maxCycles 1 = Except.ok 1 ∧
    (∃ f, blipDut.pslverr = some f ∧ f 1 = 1) ∧
    (APBMaster.write blipDut 0 0).2 = Except.ok (true, none) ∧
    (APBMaster.read blipDut 0).2 = Except.ok (0, none) :=
  ⟨rfl, ⟨_, rfl, rfl⟩, rfl, rfl⟩

/-- C4 (amended): for every write or read transaction in which the optional
slave-error signal is bound, the transactor samples it one clock edge after
ready is observed (at edge `m+1`, the same point at which the controls are
deasserted); if it reads asserted there the operation returns
Failure(SlaveError) and never a Success outcome. -/
theorem slverr_checked_after_stabilize_c4 (dut : DutOut) (addr data m : Nat)
    (f : Nat → Nat)
    (hm : APBMaster.wait_pready dut.pready maxCycles 1 = Except.ok m)
    (hf : dut.pslverr = some f) (hv : f (m + 1) = 1) :
    (APBMaster.write dut addr data).2 = Except.ok (false, some "pslverr asserted") ∧
    (∀ v, (APBMaster.write dut addr data).2 ≠ Except.ok (true, v)) ∧
    (APBMaster.read dut addr).2 = Except.ok (0, some "pslverr asserted") ∧
    (∀ v, (APBMaster.read dut addr).2 ≠ Except.ok (v, none)) := by
  have hw : (APBMaster.write dut addr data).2 =
      Except.ok (false, some "pslverr asserted") := by
    simp [APBMaster.write, hm, hf, hv]
  have hr : (APBMaster.read dut addr).2 =
      Except.ok (0, some "pslverr asserted") := by
    simp [APBMaster.read, hm, hf, hv]
  refine ⟨hw, ?_, hr, ?_⟩
  · intro v h
    rw [hw] at h
    simp at h
  · intro v h
    rw [hr] at h
    simp at h

/-- Witness for the amended C4 on `errDut` (error signal constantly 1). -/
theorem slverr_checked_after_stabilize_c4_witness :
    (APBMaster.write errDut 8 9).2 = Except.ok (false, some "pslverr asserted") ∧
    (APBMaster.read errDut 8).2 = Except.ok (0, some "pslverr asserted") := by
  have h := slverr_checked_after_stabilize_c4 errDut 8 9 1 (fun _ => 1) rfl rfl rfl
  exact ⟨h.1, h.2.2.1⟩

theorem firstHit_map_names (l : List String) (f : String → Bool) (g : String → String) :
    firstHit (l.map (fun n => (f n, g n))) = (l.find? f).map g := by
  induction l with
  | nil => rfl
  | cons a t ih =>
    cases ha : f a
    · simpa [firstHit, List.find?, ha] using ih
    · simp [firstHit, List.find?, ha]

theorem firstHit_append (l1 l2 : List (Bool × String)) :
    firstHit (l1 ++ l2) =
      match firstHit l1 with
      | some x => some x
      | none => firstHit l2 := by
  induction l1 with
  | nil => simp [firstHit]
  | cons q t ih =>
    cases hq : q.1
    · simp only [List.cons_append]
      rw [show firstHit (q :: (t ++ l2)) = firstHit (t ++ l2) from by
            simp [firstHit, List.find?, hq],
          show firstHit (q :: t) = firstHit t from by simp [firstHit, List.find?, hq]]
      exact ih
    · simp [firstHit, List.find?, hq]

theorem firstHit_specNested (names : List String) :
    ∀ children : List SimChild,
      firstHit (specNestedProbes names children) = resolveNested children names := by
  intro children
  induction children with
  | nil => rfl
  | cons c rest ih =>
    rw [show specNestedProbes names (c :: rest) =
          (names.map (fun n => (c.csignals.contains n, c.cname ++ "." ++ n))) ++
            specNestedProbes names rest from rfl]
    rw [firstHit_append, firstHit_map_names]
    rw [show resolveNested (c :: rest) names =
          (match names.find? (fun n => c.csignals.contains n) with
           | some n => some (c.cname ++ "." ++ n)
           | none => resolveNested rest names) from rfl]
    cases hf : names.find? (fun n => c.csignals.contains n) with
    | none => simpa using ih
    | some n => rfl

/-- C5: for every role base name and prefix, `find_signal` probes the name
candidates in exactly the fixed order claim C5 states — `P_B`, `o_P_B`, the
prefix with the input-direction marker substituted by the output marker
concatenated with `B`, bare `B`, then the same four forms one level deep in
each immediate DUT sub-component — and the first matching probe wins (which
also makes resolution a function of the DUT shape, hence deterministic); in
particular, for a DUT exposing only `o_cpu_apb_*` signals under prefix
`i_cpu_apb`, construction succeeds via the direction-substitution candidate
with no binding error. -/
theorem binding_order_c5 :
    (∀ (dut : SimDUT) (pfx base : String),
      resolve dut pfx base = firstHit (specProbes dut pfx base)) ∧
    APBMaster.init scenarioDut "i_cpu_apb" =
      Except.ok ⟨"o_cpu_apb_paddr", "o_cpu_apb_psel", "o_cpu_apb_penable",
        "o_cpu_apb_pwrite", "o_cpu_apb_pwdata", "o_cpu_apb_pready",
        "o_cpu_apb_prdata", some "o_cpu_apb_pslverr"⟩ := by
  constructor
  · intro dut pfx base
    unfold resolve specProbes
    rw [firstHit_append,
        firstHit_map_names (candidates pfx base ++ [base])
          (fun n => dut.signals.contains n) (fun n => n),
        firstHit_specNested, List.find?_append]
    rw [show List.find? (fun n => dut.signals.contains n) [base] =
          (match dut.signals.contains base with
           | true => some base
           | false => none) from rfl]
    cases h1 : (candidates pfx base).find? (fun n => dut.signals.contains n) with
    | some n => rfl
    | none =>
      cases h2 : dut.signals.contains base
      · rfl
      · rfl
  · rfl

theorem strAppend_data (s t : String) : (s ++ t).data = s.data ++ t.data := rfl

theorem find_signal_ok_of (dut : SimDUT) (p b v : String)
    (h : resolve dut p b = some v) : find_signal dut p b = Except.ok v := by
  unfold find_signal
  rw [h]

theorem find_signal_error_of (dut : SimDUT) (p b : String)
    (h : resolve dut p b = none) :
    find_signal dut p b = Except.error (bindErrorMsg p b) := by
  unfold find_signal
  rw [h]

theorem initResolved_fail (dut : SimDUT) (p : String)
    (hfail : ∀ m, APBMaster.initResolved dut p ≠ Except.ok m) :
    ∃ b, b ∈ mandatoryRoles ∧ resolve dut p b = none ∧
      APBMaster.initResolved dut p = Except.error (bindErrorMsg p b) := by
  cases r1 : resolve dut p "paddr" with
  | none =>
    exact ⟨"paddr", by simp [mandatoryRoles], r1, by
      simp [APBMaster.initResolved, find_signal_error_of dut p "paddr" r1,
        Bind.bind, Except.bind]⟩
  | some v1 =>
  have f1 := find_signal_ok_of dut p "paddr" v1 r1
  cases r2 : resolve dut p "psel" with
  | none =>
    exact ⟨"psel", by simp [mandatoryRoles], r2, by
      simp [APBMaster.initResolved, f1, find_signal_error_of dut p "psel" r2,
        Bind.bind, Except.bind]⟩
  | some v2 =>
  have f2 := find_signal_ok_of dut p "psel" v2 r2
  cases r3 : resolve dut p "penable" with
  | none =>
    exact ⟨"penable", by simp [mandatoryRoles], r3, by
      simp [APBMaster.initResolved, f1, f2, find_signal_error_of dut p "penable" r3,
        Bind.bind, Except.bind]⟩
  | some v3 =>
  have f3 := find_signal_ok_of dut p "penable" v3 r3
  cases r4 : resolve dut p "pwrite" with
  | none =>
    exact ⟨"pwrite", by simp [mandatoryRoles], r4, by
      simp [APBMaster.initResolved, f1, f2, f3, find_signal_error_of dut p "pwrite" r4,
        Bind.bind, Except.bind]⟩
  | some v4 =>
  have f4 := find_signal_ok_of dut p "pwrite" v4 r4
  cases r5 : resolve dut p "pwdata" with
  | none =>
    exact ⟨"pwdata", by simp [mandatoryRoles], r5, by
      simp [APBMaster.initResolved, f1, f2, f3, f4,
        find_signal_error_of dut p "pwdata" r5, Bind.bind, Except.bind]⟩
  | some v5 =>
  have f5 := find_signal_ok_of dut p "pwdata" v5 r5
  cases r6 : resolve dut p "pready" with
  | none =>
    exact ⟨"pready", by simp [mandatoryRoles], r6, by
      simp [APBMaster.initResolved, f1, f2, f3, f4, f5,
        find_signal_error_of dut p "pready" r6, Bind.bind, Except.bind]⟩
  | some v6 =>
  have f6 := find_signal_ok_of dut p "pready" v6 r6
  cases r7 : resolve dut p "prdata" with
  | none =>
    exact ⟨"prdata", by simp [mandatoryRoles], r7, by
      simp [APBMaster.initResolved, f1, f2, f3, f4, f5, f6,
        find_signal_error_of dut p "prdata" r7, Bind.bind, Except.bind]⟩
  | some v7 =>
  have f7 := find_signal_ok_of dut p "prdata" v7 r7
  exfalso
  cases r8 : resolve dut p "pslverr" with
  | none =>
    exact hfail ⟨v1, v2, v3, v4, v5, v6, v7, none⟩ (by
      simp [APBMaster.initResolved, f1, f2, f3, f4, f5, f6, f7,
        find_signal_error_of dut p "pslverr" r8,
        Bind.bind, Except.bind, Pure.pure, Except.pure])
  | some v8 =>
    exact hfail ⟨v1, v2, v3, v4, v5, v6, v7, some v8⟩ (by
      simp [APBMaster.initResolved, f1, f2, f3, f4, f5, f6, f7,
        find_signal_ok_of dut p "pslverr" v8 r8,
        Bind.bind, Except.bind, Pure.pure, Except.pure])

/-- C6: at construction, an unresolved optional `pslverr` role binds as
absent (`none`) instead of failing, while failure to resolve any of the
seven mandatory roles — after the full candidate order including the nested
search is exhausted — makes construction fail with the `AttributeError` of
the first unresolved mandatory role, whose message names the role (as the
bare base-name candidate) and every prefixed candidate name tried. -/
theorem optional_slverr_binding_c6 (dut : SimDUT) (rawPfx pfx : String)
    (a s e w wd r rd : String)
    (hp : rstripChar rawPfx (Char.ofNat 95) = pfx)
    (h1 : resolve dut pfx "paddr" = some a)
    (h2 : resolve dut pfx "psel" = some s)
    (h3 : resolve dut pfx "penable" = some e)
    (h4 : resolve dut pfx "pwrite" = some w)
    (h5 : resolve dut pfx "pwdata" = some wd)
    (h6 : resolve dut pfx "pready" = some r)
    (h7 : resolve dut pfx "prdata" = some rd)
    (h8 : resolve dut pfx "pslverr" = none) :
    APBMaster.init dut rawPfx = Except.ok ⟨a, s, e, w, wd, r, rd, none⟩ ∧
    (∀ (dut2 : SimDUT) (raw2 : String),
      (∀ m, APBMaster.init dut2 raw2 ≠ Except.ok m) →
      ∃ b, b ∈ mandatoryRoles ∧
        resolve dut2 (rstripChar raw2 (Char.ofNat 95)) b = none ∧
        APBMaster.init dut2 raw2 =
          Except.error (bindErrorMsg (rstripChar raw2 (Char.ofNat 95)) b)) ∧
    (∀ (pfx2 base : String),
      base.data <:+: (bindErrorMsg pfx2 base).data ∧
      ∀ c ∈ candidates pfx2 base, c.data <:+: (bindErrorMsg pfx2 base).data) := by
  refine ⟨?_, ?_, ?_⟩
  · show APBMaster.initResolved dut (rstripChar rawPfx (Char.ofNat 95)) = _
    rw [hp]
    simp [APBMaster.initResolved,
      find_signal_ok_of dut pfx "paddr" a h1,
      find_signal_ok_of dut pfx "psel" s h2,
      find_signal_ok_of dut pfx "penable" e h3,
      find_signal_ok_of dut pfx "pwrite" w h4,
      find_signal_ok_of dut pfx "pwdata" wd h5,
      find_signal_ok_of dut pfx "pready" r h6,
      find_signal_ok_of dut pfx "prdata" rd h7,
      find_signal_error_of dut pfx "pslverr" h8,
      Bind.bind, Except.bind, Pure.pure, Except.pure]
  · intro dut2 raw2 hfail
    obtain ⟨b, hb, hres, herr⟩ :=
      initResolved_fail dut2 (rstripChar raw2 (Char.ofNat 95))
        (fun m hm => hfail m hm)
    exact ⟨b, hb, hres, herr⟩
  · intro pfx2 base
    constructor
    · exact ⟨"No APB signal found for ".data,
        ("; tried: [" ++ (pfx2 ++ "_" ++ base) ++ ", " ++
          ("o_" ++ pfx2 ++ "_" ++ base) ++ ", " ++
          (pyReplace pfx2 "i_" "o_" ++ "_" ++ base) ++ "] and nested attrs").data,
        by simp [bindErrorMsg, strAppend_data, List.append_assoc]⟩
    · intro c hc
      simp [candidates] at hc
      rcases hc with hc | hc | hc <;> subst hc
      · exact ⟨("No APB signal found for " ++ base ++ "; tried: [").data,
          (", " ++ ("o_" ++ pfx2 ++ "_" ++ base) ++ ", " ++
            (pyReplace pfx2 "i_" "o_" ++ "_" ++ base) ++ "] and nested attrs").data,
          by simp [bindErrorMsg, strAppend_data, List.append_assoc]⟩
      · exact ⟨("No APB signal found for " ++ base ++ "; tried: [" ++
            (pfx2 ++ "_" ++ base) ++ ", ").data,
          (", " ++ (pyReplace pfx2 "i_" "o_" ++ "_" ++ base) ++ "] and nested attrs").data,
          by simp [bindErrorMsg, strAppend_data, List.append_assoc]⟩
      · exact ⟨("No APB signal found for " ++ base ++ "; tried: [" ++
            (pfx2 ++ "_" ++ base) ++ ", " ++ ("o_" ++ pfx2 ++ "_" ++ base) ++ ", ").data,
          ("] and nested attrs").data,
          by simp [bindErrorMsg, strAppend_data, List.append_assoc]⟩

/-- Witness for C6: a DUT with the seven `bus_*` signals and no `pslverr`
binds with the optional role absent; a DUT exposing nothing fails
construction with the error of an unresolved mandatory role; the error
message contains the role name. -/
theorem optional_slverr_binding_c6_witness :
    APBMaster.init noSlverrDut "bus_" =
      Except.ok ⟨"bus_paddr", "bus_psel", "bus_penable", "bus_pwrite",
        "bus_pwdata", "bus_pready", "bus_prdata", none⟩ ∧
    (∃ b, b ∈ mandatoryRoles ∧
      resolve emptyDut (rstripChar "p" (Char.ofNat 95)) b = none ∧
      APBMaster.init emptyDut "p" =
        Except.error (bindErrorMsg (rstripChar "p" (Char.ofNat 95)) b)) ∧
    "paddr".data <:+: (bindErrorMsg "i_cpu" "paddr").data := by
  have h := optional_slverr_binding_c6 noSlverrDut "bus_" "bus"
    "bus_paddr" "bus_psel" "bus_penable" "bus_pwrite" "bus_pwdata"
    "bus_pready" "bus_prdata" rfl rfl rfl rfl rfl rfl rfl rfl rfl
  exact ⟨h.1, h.2.1 emptyDut "p" (fun m hm => Except.noConfusion hm),
    (h.2.2 "i_cpu" "paddr").1⟩

theorem memAt_succ (evs : List Event) (rA m0 j : Nat) :
    memAt evs rA m0 (j + 1) =
      (if valueAt evs Role.psel j = some 1 ∧ valueAt evs Role.penable j = some 1 ∧
          valueAt evs Role.pwrite j = some 1 ∧ valueAt evs Role.paddr j = some rA then
        (valueAt evs Role.pwdata j).getD (memAt evs rA m0 j)
      else memAt evs rA m0 j) := rfl

/-- C9: round-trip law.  Against a DUT whose storage at the addressed
location is a simple register (zero-wait-state, latching `pwdata` on a
`psel ∧ penable ∧ pwrite` edge at its address, presenting its state on
`prdata`, no slave error), a `write(a, d)` succeeds and leaves the register
holding `d` from the commit edge on, and the subsequent `read(a)` — whose
driven trace is the same as against any zero-wait-state DUT — returns
exactly the written value `d`. -/
theorem write_read_roundtrip_c9 (a d mem0 : Nat) :
    (APBMaster.write readyDut a d).2 = Except.ok (true, none) ∧
    memAt (writeEvsReg a d) a mem0 2 = d ∧
    (APBMaster.read (regReadDut a d) a).1 = readEvsReg a ∧
    (APBMaster.read (regReadDut a d) a).2 = Except.ok (d, none) := by
  have hw : APBMaster.wait_pready readyDut.pready maxCycles 1 = Except.ok 1 := rfl
  have hw2 : APBMaster.wait_pready (regReadDut a d).pready maxCycles 1 =
      Except.ok 1 := rfl
  have hmem : ∀ m0b, memAt (readEvsReg a) a m0b 2 = m0b := by
    intro m0b
    rw [show (2 : Nat) = 1 + 1 from rfl, memAt_succ,
        show (1 : Nat) = 0 + 1 from rfl, memAt_succ]
    simp [readEvsReg, APBMaster.read, hw, valueAt, memAt]
  refine ⟨rfl, ?_, ?_, ?_⟩
  · rw [show (2 : Nat) = 1 + 1 from rfl, memAt_succ,
        show (1 : Nat) = 0 + 1 from rfl, memAt_succ]
    simp [writeEvsReg, APBMaster.write, hw, valueAt, memAt]
  · simp [readEvsReg, APBMaster.read, hw, hw2]
  · have hpr : (regReadDut a d).prdata 2 = d := by
      simpa using hmem d
    simp [APBMaster.read, hw2, hpr, show (regReadDut a d).pslverr = none from rfl]



theorem replaceChars_succ_cons (pat rep : List Char) (fuel : Nat) (c : Char)
    (rest : List Char) :
    replaceChars pat rep (fuel + 1) (c :: rest) =
      if pat.isPrefixOf (c :: rest) ∧ pat ≠ [] then
        rep ++ replaceChars pat rep fuel ((c :: rest).drop pat.length)
      else c :: replaceChars pat rep fuel rest := rfl

theorem infix_of_prefix_drop {l s : List Char} {p : Nat} (h : l <+: s.drop p) :
    l <:+: s := by
  obtain ⟨v, hv⟩ := h
  exact ⟨s.take p, v, by rw [List.append_assoc, hv, List.take_append_drop]⟩

theorem replaceChars_ne_self (fuel : Nat) :
    ∀ s : List Char, ['i', '_'] <:+: s → s.length ≤ fuel →
      replaceChars ['i', '_'] ['o', '_'] fuel s ≠ s := by
  induction fuel with
  | zero =>
    intro s hinf hlen
    obtain rfl : s = [] := List.eq_nil_of_length_eq_zero (Nat.le_zero.mp hlen)
    obtain ⟨u, v, huv⟩ := hinf
    simp at huv
  | succ n ih =>
    intro s hinf hlen
    cases s with
    | nil =>
      obtain ⟨u, v, huv⟩ := hinf
      simp at huv
    | cons c rest =>
      by_cases hp : ['i', '_'] <+: (c :: rest)
      · obtain ⟨t, ht⟩ := hp
        injection ht with h1 h2
        subst h1
        subst h2
        rw [replaceChars_succ_cons,
            if_pos ⟨List.isPrefixOf_iff_prefix.mpr ⟨t, rfl⟩, by simp⟩]
        intro heq
        injection heq with hoi
        exact absurd hoi (by decide)
      · rw [replaceChars_succ_cons,
            if_neg (fun hc => hp (List.isPrefixOf_iff_prefix.mp hc.1))]
        intro heq
        injection heq with h1 h2
        obtain ⟨u, v, huv⟩ := hinf
        cases u with
        | nil =>
          rw [List.nil_append] at huv
          exact hp ⟨v, huv⟩
        | cons a u2 =>
          simp only [List.cons_append] at huv
          injection huv with ha hrest
          have hlen2 : rest.length ≤ n := by
            simp only [List.length_cons] at hlen
            omega
          exact ih rest ⟨u2, v, hrest⟩ hlen2 h2

theorem eqStr_of_data {s t : String} (h : s.data = t.data) : s = t := by
  cases s
  cases t
  exact congrArg String.mk h

theorem pyReplace_ne_swapLeading (pfx : String)
    (h : ∃ p, 0 < p ∧ ['i', '_'] <+: pfx.data.drop p) :
    pyReplace pfx "i_" "o_" ≠ swapLeadingMarker pfx := by
  obtain ⟨dl⟩ := pfx
  obtain ⟨p, hp0, hpre⟩ := h
  by_cases hlead : ['i', '_'] <+: dl
  · obtain ⟨v, hv⟩ := hlead
    subst hv
    have hvinf : ['i', '_'] <:+: v := by
      rcases Nat.lt_or_ge p 2 with h2 | h2
      · obtain rfl : p = 1 := by omega
        obtain ⟨w, hw⟩ := hpre
        have hw2 : 'i' :: '_' :: w = '_' :: v := hw
        injection hw2 with hii _
        exact absurd hii (by decide)
      · obtain ⟨q, rfl⟩ : ∃ q, p = q + 2 := ⟨p - 2, by omega⟩
        have hpre2 : ['i', '_'] <+: v.drop q := hpre
        exact infix_of_prefix_drop hpre2
    have hsw : swapLeadingMarker (String.mk (['i', '_'] ++ v)) =
        String.mk ('o' :: '_' :: v) := by
      unfold swapLeadingMarker
      rw [if_pos (List.isPrefixOf_iff_prefix.mpr ⟨v, rfl⟩)]
      rfl
    have hpy : pyReplace (String.mk (['i', '_'] ++ v)) "i_" "o_" =
        String.mk ('o' :: '_' ::
          replaceChars ['i', '_'] ['o', '_'] (v.length + 1) v) := by
      show String.mk (replaceChars ['i', '_'] ['o', '_'] (v.length + 1 + 1)
          ('i' :: '_' :: v)) = _
      rw [replaceChars_succ_cons,
          if_pos ⟨List.isPrefixOf_iff_prefix.mpr ⟨v, rfl⟩, by simp⟩]
      rfl
    rw [hpy, hsw]
    intro heq
    have hdata : ('o' :: '_' ::
        replaceChars ['i', '_'] ['o', '_'] (v.length + 1) v) =
        'o' :: '_' :: v := congrArg String.data heq
    injection hdata with _ hdata2
    injection hdata2 with _ hdata3
    exact replaceChars_ne_self (v.length + 1) v hvinf (by omega) hdata3
  · have hsw : swapLeadingMarker (String.mk dl) = String.mk dl := by
      unfold swapLeadingMarker
      rw [if_neg (fun hc => hlead (List.isPrefixOf_iff_prefix.mp hc))]
    rw [hsw]
    intro heq
    have hd : replaceChars ['i', '_'] ['o', '_'] dl.length dl = dl :=
      congrArg String.data heq
    exact replaceChars_ne_self dl.length dl
      (infix_of_prefix_drop hpre) (Nat.le_refl _) hd

/-- C10: the direction-substitution binding candidate is formed by replacing
every occurrence of the input marker `i_` anywhere in the prefix with `o_`,
not only a leading one: the third candidate is always built from the
replace-all of the prefix, and for every prefix containing `i_` at a
non-leading position the substituted prefix — and hence the generated
candidate, for every base name — differs from what swapping only a leading
direction marker would produce; on the example prefixes, `dbg_i_bus` yields
`dbg_o_bus` (the leading-only swap leaves it unchanged) and `i_dbg_i_bus`
has both its occurrences substituted. -/
theorem direction_subst_c10 :
    (∀ pfx base : String,
      candidates pfx base =
        [pfx ++ "_" ++ base, "o_" ++ pfx ++ "_" ++ base,
         pyReplace pfx "i_" "o_" ++ "_" ++ base]) ∧
    (∀ pfx base : String,
      (∃ p, 0 < p ∧ ['i', '_'] <+: pfx.data.drop p) →
        pyReplace pfx "i_" "o_" ≠ swapLeadingMarker pfx ∧
        pyReplace pfx "i_" "o_" ++ "_" ++ base ≠
          swapLeadingMarker pfx ++ "_" ++ base) ∧
    pyReplace "dbg_i_bus" "i_" "o_" = "dbg_o_bus" ∧
    swapLeadingMarker "dbg_i_bus" = "dbg_i_bus" ∧
    pyReplace "i_dbg_i_bus" "i_" "o_" = "o_dbg_o_bus" ∧
    swapLeadingMarker "i_dbg_i_bus" = "o_dbg_i_bus" := by
  refine ⟨fun pfx base => rfl, ?_, by decide, by decide, by decide, by decide⟩
  intro pfx base h
  have hne := pyReplace_ne_swapLeading pfx h
  refine ⟨hne, fun hc => hne ?_⟩
  have hd := congrArg String.data hc
  simp only [strAppend_data] at hd
  exact eqStr_of_data (List.append_cancel_right (List.append_cancel_right hd))

/-- Witness for C10 at the prefix `dbg_i_bus` (its `i_` occurrence is at
position 4, a non-leading one) and base `paddr`. -/
theorem direction_subst_c10_witness :
    pyReplace "dbg_i_bus" "i_" "o_" ≠ swapLeadingMarker "dbg_i_bus" ∧
    pyReplace "dbg_i_bus" "i_" "o_" ++ "_" ++ "paddr" ≠
      swapLeadingMarker "dbg_i_bus" ++ "_" ++ "paddr" :=
  direction_subst_c10.2.1 "dbg_i_bus" "paddr" ⟨4, by decide, by decide⟩
